import Mathlib

/-!
# GnomeCodexBar — shallow embedding of the core data pipeline

This file embeds the data-fetch orchestration, normalization, aggregation
and cache/state-machine engine of the GnomeCodexBar repository:

* `src/lib/provider-utils.js` — `formatProviderName`, `normalizeWindow`,
  `normalizeProvider`, `calculateAggregateStats` (pure functions);
* `src/cli.js` — `findCLI`, `fetchProviders` (the external subprocess,
  its timeout and its two output streams are modelled by an explicit
  environment record `CLIEnv`);
* `extension.js` — the `CodexBarExtension` cache/state machine
  (`_loadCache`, `_saveCache`, `_refresh`, `_updateUI`,
  `_onSettingsChanged`), with GSettings modelled as an explicit `Store`
  record and wall-clock time passed as an explicit `now : Int`.

Modelling conventions for the JavaScript semantics:

* JS numbers that the code only ever compares, subtracts and takes
  minima of are modelled as `Int` (percentages, thresholds, timestamps,
  exit codes); no float rounding or division is exercised by the code
  on these paths.
* Optional / possibly-`undefined` fields are `Option`; the `||` operator
  on strings treats `""` as falsy (`jsStr?`, `strOr`), on numbers it
  treats `0` as falsy (`numOrNull`); the `??` operator is `Option.getD`.
* A thrown JS exception is an `Except.error`; code that cannot throw is
  a plain function.  Property access on `null`/`undefined` throws.
* `JSON.parse` / `tryParseJSON` of the subprocess output is abstracted
  by the `ParsedJson` inductive (unparseable, falsy value, non-array
  truthy value, or an array of elements); `new Date(s).getTime()` is
  abstracted by an explicit parameter `dateMs : String → Int`.
-/

/-- A JS `error` field value: either a string or an object with an
optional `message` property (`cli.js` reads `p.error.message`). -/
inductive ErrVal
  | str (s : String)
  | obj (message : Option String)
deriving DecidableEq, Repr

/-- JS truthiness of an optional string: `null`/`undefined` and `""` are falsy.
Used for the `x || null` idiom: a falsy string collapses to `null`. -/
def jsStr? (v : Option String) : Option String :=
  match v with
  | some s => if s = "" then none else some s
  | none => none

/-- The `a || b` idiom on two optional strings (first truthy wins, result
normalised by a trailing `|| null`). -/
def strOr2 (a b : Option String) : Option String :=
  match jsStr? a with
  | some s => some s
  | none => jsStr? b

/-- The `a || d` idiom producing a string with a non-optional default. -/
def strOrD (a : Option String) (d : String) : String :=
  match jsStr? a with
  | some s => s
  | none => d

/-- The `n || null` idiom on an optional number: `0` is falsy. -/
def numOrNull (v : Option Int) : Option Int :=
  match v with
  | some q => if q = 0 then none else some q
  | none => none

/-- JS truthiness of a (possibly absent) `error` field, as tested by
`if (p.error)` / `p => p.error`: absent and `""` are falsy, error
objects are always truthy. -/
def errTruthy : Option ErrVal → Bool
  | none => false
  | some (ErrVal.str s) => s != ""
  | some (ErrVal.obj _) => true

/-- Normalized usage window (`normalizeWindow` output shape). -/
structure Window where
  label : String
  usedPercent : Int
  remainingPercent : Int
  windowMinutes : Option Int
  resetsAt : Option String
  resetDescription : Option String
deriving DecidableEq, Repr

/-- Normalized status info (`provider.status` shape). -/
structure StatusInfo where
  indicator : String
  description : Option String
  url : Option String
  updatedAt : Option String
deriving DecidableEq, Repr

/-- Normalized credits (`provider.credits` shape); `remaining` is passed
through without defaulting, so it may be absent. -/
structure Credits where
  remaining : Option Int
  updatedAt : Option String
deriving DecidableEq, Repr

/-- Canonical provider record (`normalizeProvider` output shape). -/
structure Provider where
  id : String
  name : String
  version : Option String
  source : Option String
  account : Option String
  organization : Option String
  plan : Option String
  status : Option StatusInfo
  primary : Option Window
  secondary : Option Window
  tertiary : Option Window
  credits : Option Credits
  error : Option ErrVal
deriving DecidableEq, Repr

/-- Raw usage window as emitted by the CLI (`raw.usage.primary` etc.). -/
structure RawWindow where
  usedPercent : Option Int := none
  windowMinutes : Option Int := none
  resetsAt : Option String := none
  resetDescription : Option String := none
deriving DecidableEq, Repr

/-- Raw identity sub-object (`raw.usage.identity`). -/
structure RawIdentity where
  accountEmail : Option String := none
  accountOrganization : Option String := none
  loginMethod : Option String := none
deriving DecidableEq, Repr

/-- Raw usage sub-object (`raw.usage`). -/
structure RawUsage where
  identity : Option RawIdentity := none
  primary : Option RawWindow := none
  secondary : Option RawWindow := none
  tertiary : Option RawWindow := none
deriving DecidableEq, Repr

/-- Raw status sub-object (`raw.status`). -/
structure RawStatus where
  indicator : Option String := none
  description : Option String := none
  url : Option String := none
  updatedAt : Option String := none
deriving DecidableEq, Repr

/-- Raw credits sub-object (`raw.credits`). -/
structure RawCredits where
  remaining : Option Int := none
  updatedAt : Option String := none
deriving DecidableEq, Repr

/-- Raw provider payload: a truthy JS object with the fields the
normalizer reads (absent fields are `none`). -/
structure RawProvider where
  provider : Option String := none
  version : Option String := none
  source : Option String := none
  account : Option String := none
  usage : Option RawUsage := none
  status : Option RawStatus := none
  credits : Option RawCredits := none
  error : Option ErrVal := none
deriving DecidableEq, Repr

/-- The static id→display-name table `PROVIDER_NAMES`. -/
def PROVIDER_NAMES : List (String × String) :=
  [("codex", "Codex"), ("claude", "Claude Code"), ("cursor", "Cursor"),
   ("gemini", "Gemini"), ("copilot", "GitHub Copilot"), ("opencode", "OpenCode"),
   ("kimi", "Kimi"), ("kimik2", "Kimi K2"), ("kiro", "Kiro"), ("zai", "z.ai"),
   ("factory", "Factory/Droid"), ("augment", "Augment"), ("amp", "Amp"),
   ("antigravity", "Antigravity"), ("jetbrains", "JetBrains AI"),
   ("vertex", "Vertex AI"), ("minimax", "MiniMax"), ("synthetic", "Synthetic")]

/-- `formatProviderName(id)`: `PROVIDER_NAMES[id?.toLowerCase()] || id || 'Unknown'`. -/
def formatProviderName (id : Option String) : String :=
  match id with
  | none => "Unknown"
  | some s =>
    match PROVIDER_NAMES.lookup s.toLower with
    | some n => n
    | none => if s = "" then "Unknown" else s

/-- `normalizeWindow(window, defaultLabel)`: `null` in, `null` out;
`usedPercent ?? 0`; `windowMinutes || null`; string fields `|| null`. -/
def normalizeWindow (w : Option RawWindow) (defaultLabel : String) : Option Window :=
  match w with
  | none => none
  | some win =>
    some { label := defaultLabel,
           usedPercent := win.usedPercent.getD 0,
           remainingPercent := 100 - win.usedPercent.getD 0,
           windowMinutes := numOrNull win.windowMinutes,
           resetsAt := jsStr? win.resetsAt,
           resetDescription := jsStr? win.resetDescription }

/-- `normalizeProvider(raw)` for a truthy object `raw` (the `!raw` null
check lives in the callers' element model, `normalizeElem`). -/
def normalizeProvider (raw : RawProvider) : Provider :=
  { id := strOrD raw.provider "unknown",
    name := formatProviderName raw.provider,
    version := jsStr? raw.version,
    source := jsStr? raw.source,
    account := strOr2 raw.account ((raw.usage.bind (fun u => u.identity)).bind (fun i => i.accountEmail)),
    organization := jsStr? ((raw.usage.bind (fun u => u.identity)).bind (fun i => i.accountOrganization)),
    plan := jsStr? ((raw.usage.bind (fun u => u.identity)).bind (fun i => i.loginMethod)),
    status := raw.status.map (fun st =>
      { indicator := strOrD st.indicator "unknown",
        description := jsStr? st.description,
        url := jsStr? st.url,
        updatedAt := jsStr? st.updatedAt }),
    primary := raw.usage.bind (fun u => normalizeWindow u.primary "Session"),
    secondary := raw.usage.bind (fun u => normalizeWindow u.secondary "Weekly"),
    tertiary := raw.usage.bind (fun u => normalizeWindow u.tertiary "Tertiary"),
    credits := raw.credits.map (fun c =>
      { remaining := c.remaining, updatedAt := jsStr? c.updatedAt }),
    error := match raw.error with
      | some (ErrVal.str s) => if s = "" then none else some (ErrVal.str s)
      | some (ErrVal.obj m) => some (ErrVal.obj m)
      | none => none }

/-- Threshold options of `calculateAggregateStats` (both optional,
destructuring defaults 20 / 5 applied inside). -/
structure AggOptions where
  warningThreshold : Option Int := none
  criticalThreshold : Option Int := none
deriving DecidableEq, Repr

/-- Aggregate statistics returned by `calculateAggregateStats`. -/
structure AggregateStats where
  minRemainingPercent : Option Int
  urgentProvider : Option Provider
  warningCount : Nat
  criticalCount : Nat
  nextResetTime : Option Int
deriving DecidableEq, Repr

/-- The local mutable accumulators of the `calculateAggregateStats` loop. -/
structure AggState where
  minPercent : Int
  urgentProvider : Option Provider
  warningCount : Nat
  criticalCount : Nat
  nextReset : Option Int
deriving DecidableEq, Repr

/-- Loop accumulators before the first iteration. -/
def initAggState : AggState :=
  { minPercent := 100, urgentProvider := none,
    warningCount := 0, criticalCount := 0, nextReset := none }

/-- The stats returned on `!providers || providers.length === 0`. -/
def emptyStats : AggregateStats :=
  { minRemainingPercent := none, urgentProvider := none,
    warningCount := 0, criticalCount := 0, nextResetTime := none }

/-- `[p.primary, p.secondary, p.tertiary].filter(w => w)`. -/
def presentWindows (p : Provider) : List Window :=
  [p.primary, p.secondary, p.tertiary].filterMap id

/-- First statement of the window loop body: strict-`<` minimum
tracking with its owning provider (`if (w.remainingPercent < minPercent)`). -/
def stepWindowMin (p : Provider) (st : AggState) (w : Window) : AggState :=
  if w.remainingPercent < st.minPercent
  then { st with minPercent := w.remainingPercent, urgentProvider := some p }
  else st

/-- Second statement of the window loop body: strict-`<` critical /
warning bucketing, critical checked first (`else if` makes the buckets
mutually exclusive per window). -/
def stepWindowCounts (wt ct : Int) (st : AggState) (w : Window) : AggState :=
  if w.remainingPercent < ct
  then { st with criticalCount := st.criticalCount + 1 }
  else if w.remainingPercent < wt
  then { st with warningCount := st.warningCount + 1 }
  else st

/-- Third statement of the window loop body: nearest-reset tracking
(`if (w.resetsAt)` then `!nextReset || resetTime < nextReset`, where
`!0` is truthy). -/
def stepWindowReset (dateMs : String → Int) (st : AggState) (w : Window) : AggState :=
  match w.resetsAt with
  | none => st
  | some s =>
    if s = "" then st
    else
      let rt := dateMs s
      let upd := match st.nextReset with
        | none => true
        | some n => (n == 0) || decide (rt < n)
      if upd then { st with nextReset := some rt } else st

/-- One iteration of the inner window loop of `calculateAggregateStats`:
the three statements of the loop body in source order. -/
def stepWindow (wt ct : Int) (dateMs : String → Int) (p : Provider)
    (st : AggState) (w : Window) : AggState :=
  stepWindowReset dateMs (stepWindowCounts wt ct (stepWindowMin p st w) w) w

/-- One iteration of the outer provider loop: `if (p.error) continue`,
then the window loop. -/
def stepProvider (wt ct : Int) (dateMs : String → Int)
    (st : AggState) (p : Provider) : AggState :=
  if errTruthy p.error then st
  else (presentWindows p).foldl (stepWindow wt ct dateMs p) st

/-- One iteration of the provider loop at the JS level: `p.error` on a
`null` array element throws a `TypeError`. -/
def aggStep (wt ct : Int) (dateMs : String → Int)
    (st : AggState) (p : Option Provider) : Except String AggState :=
  match p with
  | none => Except.error "TypeError: p is null"
  | some p => Except.ok (stepProvider wt ct dateMs st p)

/-- Final packaging of the loop accumulators:
`minRemainingPercent: minPercent < 100 ? minPercent : null`. -/
def finalizeAgg (st : AggState) : AggregateStats :=
  { minRemainingPercent := if st.minPercent < 100 then some st.minPercent else none,
    urgentProvider := st.urgentProvider,
    warningCount := st.warningCount,
    criticalCount := st.criticalCount,
    nextResetTime := st.nextReset }

/-- `calculateAggregateStats(providers, options = {})`.  The providers
argument may be `null` (`none`) and its elements may be `null` (`none`),
in which case the loop throws when it reaches such an element. -/
def calculateAggregateStats (dateMs : String → Int)
    (providers : Option (List (Option Provider))) (options : AggOptions) :
    Except String AggregateStats :=
  let wt := options.warningThreshold.getD 20
  let ct := options.criticalThreshold.getD 5
  match providers with
  | none => Except.ok emptyStats
  | some l =>
    if l.length = 0 then Except.ok emptyStats
    else do
      let st ← l.foldlM (aggStep wt ct dateMs) initAggState
      Except.ok (finalizeAgg st)

/-! ## `src/cli.js` — CLI resolution and fetch orchestration -/

/-- One element of the JSON array printed by the CLI, as seen by the JS
array combinators: `jsNull` covers `null`/`undefined` (property access
throws), `falsy` covers the remaining falsy values (`0`, `false`, `""`:
property access yields `undefined`, `!raw` is true), `obj` is a truthy
object carrying the fields the pipeline reads. -/
inductive RawElem
  | jsNull
  | falsy
  | obj (o : RawProvider)
deriving DecidableEq, Repr

/-- Result of `tryParseJSON` on a stream, abstracted: `unparseable`
(returned `null`), `falsyValue` (parsed to a falsy value, also treated
as no data by `!data` and `||`), `nonArrayTruthy` (truthy but fails
`Array.isArray`), or an array of elements. -/
inductive ParsedJson
  | unparseable
  | falsyValue
  | nonArrayTruthy
  | arr (elems : List RawElem)
deriving DecidableEq, Repr

/-- JS truthiness of a `tryParseJSON` result (arrays, even empty ones,
are truthy objects). -/
def parsedTruthy : ParsedJson → Bool
  | ParsedJson.arr _ => true
  | ParsedJson.nonArrayTruthy => true
  | _ => false

/-- `tryParseJSON(stdout) || tryParseJSON(stderr)`. -/
def orParsed (a b : ParsedJson) : ParsedJson :=
  if parsedTruthy a then a else b

/-- A captured output stream: its parse result and its raw text
(`stderr?.trim()` reads the raw text). -/
structure StreamData where
  parsed : ParsedJson := ParsedJson.unparseable
  raw : String := ""
deriving DecidableEq, Repr

/-- Terminal outcome of the spawned subprocess: a thrown spawn/read
error (caught by the outer `catch`), the timeout cancellable firing
first, or a normal exit with status and both streams. -/
inductive ProcOutcome
  | spawnError (msg : String)
  | timeout
  | completed (exitStatus : Int) (stdout stderr : StreamData)
deriving DecidableEq, Repr

/-- Host environment of one `fetchProviders` call: the `IS_EXECUTABLE`
file test, `GLib.find_program_in_path('codexbar')`, and the subprocess
outcome. -/
structure CLIEnv where
  isExecutable : String → Bool
  findInPath : Option String
  outcome : ProcOutcome

/-- Options record of `fetchProviders` with its destructuring defaults. -/
structure FetchOptions where
  cliPath : String := ""
  timeout : Int := 10
  debug : Bool := false
deriving DecidableEq, Repr

/-- `findCLI(customPath = '')`: an explicitly configured non-empty path
must pass the executable test and is never subject to `PATH` fallback;
an empty path auto-detects via the search path. -/
def findCLI (env : CLIEnv) (customPath : String) : Option String :=
  if customPath ≠ "" then
    if env.isExecutable customPath then some customPath else none
  else
    env.findInPath

/-- The `CLIResult` record of `cli.js`. -/
structure FetchResultR where
  success : Bool
  providers : Option (List (Option Provider))
  error : Option String
  timestamp : Int
deriving DecidableEq, Repr

/-- The fixed not-found error message of `fetchProviders`. -/
def notFoundMsg : String :=
  "codexbar CLI not found. Install from https://codexbar.app or set CLI path in preferences."

/-- The generic nonzero-exit message. -/
def exitMsg (exitStatus : Int) : String :=
  "CLI failed with exit code " ++ toString exitStatus

/-- The filter predicate `p => p.provider !== 'cli'` at the JS level:
on `null`/`undefined` elements the property access throws. -/
def keepElem : RawElem → Except String Bool
  | RawElem.jsNull => Except.error "TypeError: p is null"
  | RawElem.falsy => Except.ok true
  | RawElem.obj o => Except.ok (decide (o.provider ≠ some "cli"))

/-- Pure version of the filter predicate (agrees with `keepElem` on
non-`null` elements). -/
def keepB : RawElem → Bool
  | RawElem.jsNull => false
  | RawElem.falsy => true
  | RawElem.obj o => decide (o.provider ≠ some "cli")

/-- `Array.prototype.filter` with a predicate that may throw: elements
are tested left to right and the first throw aborts. -/
def filterElems : List RawElem → Except String (List RawElem)
  | [] => Except.ok []
  | e :: es => do
    let k ← keepElem e
    let rest ← filterElems es
    Except.ok (if k then e :: rest else rest)

/-- `normalizeProvider` applied to one (already filtered) array element:
`normalizeProvider(null)` returns `null` without throwing (the `!raw`
check comes first), so the `map` stage never throws and `null`
normalization results are kept in the output array. -/
def normalizeElem : RawElem → Option Provider
  | RawElem.jsNull => none
  | RawElem.falsy => none
  | RawElem.obj o => some (normalizeProvider o)

/-- `data.filter(p => p.provider !== 'cli').map(p => normalizeProvider(p))`. -/
def processData (elems : List RawElem) : Except String (List (Option Provider)) := do
  let fs ← filterElems elems
  Except.ok (fs.map normalizeElem)

/-- `errorPayload.find(p => p.error)` at the JS level (the predicate
throws on `null` elements reached before a match). -/
def findErrElem : List RawElem → Except String (Option RawProvider)
  | [] => Except.ok none
  | e :: es =>
    match e with
    | RawElem.jsNull => Except.error "TypeError: p is null"
    | RawElem.falsy => findErrElem es
    | RawElem.obj o => if errTruthy o.error then Except.ok (some o) else findErrElem es

/-- The `stderr?.trim() || exit message` fallback failure result. -/
def stderrFallback (now exitStatus : Int) (stderr : StreamData) : FetchResultR :=
  let se := stderr.raw.trim
  { success := false, providers := none,
    error := some (if se = "" then exitMsg exitStatus else se),
    timestamp := now }

/-- The nonzero-exit branch of `fetchProviders`: try to surface a
structured per-item error from either stream, else raw stderr text,
else the generic message. -/
def nonzeroResult (now exitStatus : Int) (stdout stderr : StreamData) : FetchResultR :=
  match orParsed stdout.parsed stderr.parsed with
  | ParsedJson.arr elems =>
    match findErrElem elems with
    | Except.error msg =>
      { success := false, providers := none, error := some msg, timestamp := now }
    | Except.ok (some o) =>
      let msg := match o.error with
        | some (ErrVal.obj m) => (jsStr? m).getD (exitMsg exitStatus)
        | _ => exitMsg exitStatus
      { success := false, providers := none, error := some msg, timestamp := now }
    | Except.ok none => stderrFallback now exitStatus stderr
  | _ => stderrFallback now exitStatus stderr

/-- Everything `fetchProviders` does after the binary has been resolved. -/
def runCLI (env : CLIEnv) (now : Int) (opts : FetchOptions) : FetchResultR :=
  match env.outcome with
  | ProcOutcome.spawnError msg =>
    { success := false, providers := none, error := some msg, timestamp := now }
  | ProcOutcome.timeout =>
    { success := false, providers := none,
      error := some ("CLI timed out after " ++ toString opts.timeout ++ "s"),
      timestamp := now }
  | ProcOutcome.completed exitStatus stdout stderr =>
    if exitStatus ≠ 0 then nonzeroResult now exitStatus stdout stderr
    else
      match stdout.parsed with
      | ParsedJson.arr elems =>
        match processData elems with
        | Except.ok provs =>
          { success := true, providers := some provs, error := none, timestamp := now }
        | Except.error msg =>
          { success := false, providers := none, error := some msg, timestamp := now }
      | ParsedJson.nonArrayTruthy =>
        { success := false, providers := none,
          error := some "CLI returned unexpected format (expected array)", timestamp := now }
      | _ =>
        { success := false, providers := none,
          error := some "Failed to parse CLI JSON output", timestamp := now }

/-- `fetchProviders(options)`: resolve the binary (the timestamp is taken
at the start of the attempt), then run it. -/
def fetchProviders (env : CLIEnv) (now : Int) (opts : FetchOptions) : FetchResultR :=
  match findCLI env opts.cliPath with
  | none => { success := false, providers := none, error := some notFoundMsg, timestamp := now }
  | some _ => runCLI env now opts

/-! ## `extension.js` — the cache & refresh state machine -/

/-- The `State` enum of `extension.js`. -/
inductive ExtState
  | idle
  | loading
  | ok
  | stale
  | error
  | errorWithCache
deriving DecidableEq, Repr

/-- The in-memory `this._cache` record. -/
structure CacheRecord where
  providers : Option (List (Option Provider))
  timestamp : Int
  error : Option String
deriving DecidableEq, Repr

/-- The three durable GSettings cache keys, with `cache-last-payload`
modelled by its parsed value (`none` is the empty string; JSON
serialization of provider arrays is injective, so value equality is
string equality of the stored payloads). -/
structure Store where
  payload : Option (List (Option Provider))
  ts : Int
  err : String
deriving DecidableEq, Repr

/-- The settings the engine reads, plus the host `Date` parser used by
`calculateAggregateStats`. -/
structure Config where
  staleAfterSeconds : Int
  refreshInterval : Int
  warningThreshold : Int
  criticalThreshold : Int
  cliPath : String
  cliTimeout : Int
  debugLogging : Bool
  dateMs : String → Int

/-- The whole mutable state of the extension that the claims concern:
the state enum, the in-memory cache and the durable store. -/
structure MachineState where
  state : ExtState
  cache : CacheRecord
  store : Store
deriving DecidableEq, Repr

/-- `_loadCache()`: seed cache and initial state from the durable store
(state starts as `IDLE` from the constructor). -/
def loadCache (cfg : Config) (now : Int) (store : Store) : MachineState :=
  let cache0 : CacheRecord := { providers := none, timestamp := 0, error := none }
  let cache1 := match store.payload with
    | some ps => { cache0 with providers := some ps, timestamp := store.ts }
    | none => cache0
  let cache2 := if store.err ≠ "" then { cache1 with error := some store.err } else cache1
  let st := match cache2.providers with
    | some _ =>
      if now - cache2.timestamp > cfg.staleAfterSeconds then ExtState.stale else ExtState.ok
    | none => if cache2.error.isSome then ExtState.error else ExtState.idle
  { state := st, cache := cache2, store := store }

/-- `_saveCache()`: the payload and the success timestamp are written
only when a payload exists; the error key is always written
(`this._cache.error || ''`). -/
def saveCache (m : MachineState) : MachineState :=
  let st1 := match m.cache.providers with
    | some ps => { m.store with payload := some ps, ts := m.cache.timestamp }
    | none => m.store
  { m with store := { st1 with err := m.cache.error.getD "" } }

/-- The `ViewModel` pushed to the indicator by `_updateUI`. -/
structure ViewModel where
  state : ExtState
  visualState : String
  percentage : Option Int
  warningCount : Nat
  criticalCount : Nat
  providers : Option (List (Option Provider))
  timestamp : Int
  error : Option String
  nextReset : Option Int
deriving DecidableEq, Repr

/-- The visual-severity cascade of `_updateUI`. -/
def visualStateOf (st : ExtState) (stats : AggregateStats) : String :=
  if st = ExtState.error ∨ st = ExtState.errorWithCache then "error"
  else if st = ExtState.stale then "stale"
  else if st = ExtState.loading then "loading"
  else if stats.criticalCount > 0 then "critical"
  else if stats.warningCount > 0 then "warning"
  else "normal"

/-- `_updateUI()`: recompute aggregate stats (with no threshold options
passed), lazily re-evaluate `OK → STALE` using a strict `>` on the cache
age, and emit the view model.  A throwing stats computation aborts before
the state mutation. -/
def updateUI (cfg : Config) (now : Int) (m : MachineState) :
    Except String (MachineState × ViewModel) := do
  let stats ← calculateAggregateStats cfg.dateMs m.cache.providers {}
  let age := if m.cache.timestamp > 0 then now - m.cache.timestamp else 0
  let st := if m.state = ExtState.ok ∧ age > cfg.staleAfterSeconds
            then ExtState.stale else m.state
  let m2 := { m with state := st }
  Except.ok (m2,
    { state := st,
      visualState := visualStateOf st stats,
      percentage := stats.minRemainingPercent,
      warningCount := stats.warningCount,
      criticalCount := stats.criticalCount,
      providers := m.cache.providers,
      timestamp := m.cache.timestamp,
      error := m.cache.error,
      nextReset := stats.nextResetTime })

/-- The machine state after a `this._updateUI()` statement: on a thrown
exception the state mutation is skipped (and the exception propagates
out of the caller, aborting its remaining statements). -/
def applyUpdateUI (cfg : Config) (now : Int) (m : MachineState) : MachineState :=
  match updateUI cfg now m with
  | Except.ok (m2, _) => m2
  | Except.error _ => m

/-- `_refresh()` with the awaited `fetchProviders` result passed in as
`result` and the wall clock at completion as `now`: the re-entrancy
guard drops triggers received while `LOADING`; success overwrites the
whole cache record and clears the error; failure overwrites only the
error field and picks `ERROR_WITH_CACHE` or `ERROR` by payload presence;
both branches persist the cache and re-render. -/
def refreshStep (cfg : Config) (now : Int) (m : MachineState)
    (result : FetchResultR) : MachineState :=
  if m.state = ExtState.loading then m
  else
    let m1 := { m with state := ExtState.loading }
    match updateUI cfg now m1 with
    | Except.error _ => m1
    | Except.ok (m1b, _) =>
      if result.success then
        let m2 := { m1b with
          cache := { providers := result.providers, timestamp := result.timestamp, error := none },
          state := ExtState.ok }
        applyUpdateUI cfg now (saveCache m2)
      else
        let cache2 := { m1b.cache with error := result.error }
        let m2 := { m1b with
          cache := cache2,
          state := if cache2.providers.isSome then ExtState.errorWithCache else ExtState.error }
        applyUpdateUI cfg now (saveCache m2)

/-- A sequence of completed refresh attempts, each with its own
completion wall clock. -/
def runSeq (cfg : Config) (steps : List (Int × FetchResultR)) (m : MachineState) : MachineState :=
  steps.foldl (fun acc s => refreshStep cfg s.1 acc s.2) m

/-- The settings keys dispatched by `_onSettingsChanged`. -/
inductive SettingsKey
  | refreshInterval
  | showText
  | showBadge
  | sortMode
  | resetDisplayMode
  | warningThreshold
  | criticalThreshold
  | providerVisibility
  | cliPath
  | cliTimeout
  | other
deriving DecidableEq, Repr

/-- The reaction `_onSettingsChanged` takes for a key. -/
inductive SettingsReaction
  | rescheduleTimer
  | redrawUI
  | noop
deriving DecidableEq, Repr

/-- The `switch (key)` of `_onSettingsChanged`. -/
def onSettingsChanged : SettingsKey → SettingsReaction
  | SettingsKey.refreshInterval => SettingsReaction.rescheduleTimer
  | SettingsKey.showText => SettingsReaction.redrawUI
  | SettingsKey.showBadge => SettingsReaction.redrawUI
  | SettingsKey.sortMode => SettingsReaction.redrawUI
  | SettingsKey.resetDisplayMode => SettingsReaction.redrawUI
  | SettingsKey.warningThreshold => SettingsReaction.redrawUI
  | SettingsKey.criticalThreshold => SettingsReaction.redrawUI
  | SettingsKey.providerVisibility => SettingsReaction.redrawUI
  | SettingsKey.cliPath => SettingsReaction.noop
  | SettingsKey.cliTimeout => SettingsReaction.noop
  | SettingsKey.other => SettingsReaction.noop

/-! ## Specification-side definitions

These restate, in the spec's own vocabulary, the quantities the claims
compare against the code: the present windows of the providers whose
`error` field is null, and their `remainingPercent` values. -/

/-- All present windows (primary, secondary, tertiary, in order) of the
providers with a null `error` field, in provider order. -/
def nonErrorWindows (ps : List Provider) : List Window :=
  ((ps.filter (fun p => p.error.isNone)).map presentWindows).flatten

/-- The `remainingPercent` values of `nonErrorWindows`. -/
def specRemainings (ps : List Provider) : List Int :=
  (nonErrorWindows ps).map (fun w => w.remainingPercent)

/-- The windows the `calculateAggregateStats` loop actually visits: the
skip test is JS truthiness of `p.error`, not nullness (the two agree on
every normalizer output). -/
def codeWindows (ps : List Provider) : List Window :=
  ((ps.filter (fun p => !errTruthy p.error)).map presentWindows).flatten

/-- A provider list is in normalizer-image form when no `error` field
holds the empty string (the normalizer collapses `""` to null), so JS
truthiness of `error` coincides with non-nullness. -/
def NormalizedErrors (ps : List Provider) : Prop :=
  ∀ p ∈ ps, p.error ≠ some (ErrVal.str "")

/-- The in-memory cache and the durable store agree whenever a payload
is cached.  `_loadCache` establishes this and every refresh preserves
it; it is what makes a failed fetch leave even the durable copy of the
payload untouched. -/
def Coherent (m : MachineState) : Prop :=
  ∀ ps, m.cache.providers = some ps →
    m.store.payload = some ps ∧ m.store.ts = m.cache.timestamp

/-! ## Concrete fixtures used by scenario theorems and witnesses -/

/-- A trivial `Date` parser for scenarios that carry no reset
timestamps. -/
def d0 : String → Int := fun _ => 0

/-- The raw happy-path batch element
`{provider: "claude", usage: {primary: {usedPercent: 55}}}`. -/
def rawClaude : RawProvider :=
  { provider := some "claude",
    usage := some { primary := some { usedPercent := some 55 } } }

/-- A normalized window with nothing used (`remainingPercent = 100`). -/
def w100 : Window :=
  { label := "Session", usedPercent := 0, remainingPercent := 100,
    windowMinutes := none, resetsAt := none, resetDescription := none }

/-- A normalized error-free provider whose only window is `w100`
(exactly `normalizeProvider` of `{usage: {primary: {}}}`). -/
def p100 : Provider :=
  { id := "unknown", name := "Unknown", version := none, source := none,
    account := none, organization := none, plan := none, status := none,
    primary := some w100, secondary := none, tertiary := none,
    credits := none, error := none }

/-- Settings with the spec's staleness scenario value
`staleAfterSeconds = 600`. -/
def cfg600 : Config :=
  { staleAfterSeconds := 600, refreshInterval := 300, warningThreshold := 20,
    criticalThreshold := 5, cliPath := "", cliTimeout := 10,
    debugLogging := false, dateMs := d0 }

/-- Machine in `OK` with a successful (empty) payload cached at
timestamp 1000. -/
def mOK : MachineState :=
  { state := ExtState.ok,
    cache := { providers := some [], timestamp := 1000, error := none },
    store := { payload := some [], ts := 1000, err := "" } }

/-- Machine in `ERROR_WITH_CACHE`, still erroring, payload cached at
timestamp 1000. -/
def mEWC : MachineState :=
  { state := ExtState.errorWithCache,
    cache := { providers := some [], timestamp := 1000,
               error := some "CLI failed with exit code 1" },
    store := { payload := some [], ts := 1000,
               err := "CLI failed with exit code 1" } }

/-- Machine currently `LOADING` (a fetch in flight). -/
def mLoad : MachineState :=
  { mOK with state := ExtState.loading }

/-- Durable store holding a successful payload saved at timestamp 1000. -/
def storeOK : Store := { payload := some [], ts := 1000, err := "" }

/-- A failed fetch outcome. -/
def fFail : FetchResultR :=
  { success := false, providers := none, error := some "boom", timestamp := 50 }

/-- CLI environment whose subprocess exits 0 printing the JSON array
`[null]`. -/
def envNull : CLIEnv :=
  { isExecutable := fun _ => true, findInPath := some "/usr/bin/codexbar",
    outcome := ProcOutcome.completed 0 { parsed := ParsedJson.arr [RawElem.jsNull] } {} }

/-- CLI environment whose subprocess exits 0 printing the JSON array
`[0]` (a falsy non-null element). -/
def envFalsy : CLIEnv :=
  { isExecutable := fun _ => true, findInPath := some "/usr/bin/codexbar",
    outcome := ProcOutcome.completed 0 { parsed := ParsedJson.arr [RawElem.falsy] } {} }

/-- A CLI-metadata marker element (`provider: "cli"`). -/
def rawCliMeta : RawProvider := { provider := some "cli" }

/-- CLI environment whose subprocess exits 0 printing a batch holding
the CLI-metadata marker followed by the claude payload. -/
def envBatch : CLIEnv :=
  { isExecutable := fun _ => true, findInPath := some "/usr/bin/codexbar",
    outcome := ProcOutcome.completed 0
      { parsed := ParsedJson.arr [RawElem.obj rawCliMeta, RawElem.obj rawClaude] } {} }

/-- Environment where nothing is executable and the search path knows a
binary: used to show an explicitly configured bad path never falls back. -/
def envNoExec : CLIEnv :=
  { isExecutable := fun _ => false, findInPath := some "/usr/bin/codexbar",
    outcome := ProcOutcome.timeout }

/-- Environment with an empty search path. -/
def envEmptyPath : CLIEnv :=
  { isExecutable := fun _ => true, findInPath := none,
    outcome := ProcOutcome.timeout }

/-- Machine state right after a startup load from `storeOK` (an empty
refresh history), used by the C1 witness. -/
def mSeeded : MachineState := runSeq cfg600 [] (loadCache cfg600 0 storeOK)

/-! ## Helper lemmas -/

/-- `_updateUI` only re-evaluates the state label: the in-memory cache
and the durable store are untouched (in particular no fetch happens and
nothing is persisted). -/
theorem applyUpdateUI_frame (cfg : Config) (now : Int) (m : MachineState) :
    (applyUpdateUI cfg now m).cache = m.cache ∧ (applyUpdateUI cfg now m).store = m.store := by
  unfold applyUpdateUI updateUI
  cases h : calculateAggregateStats cfg.dateMs m.cache.providers {} <;>
    simp [bind, Except.bind, h]

/-- `_saveCache` re-establishes store/cache coherence unconditionally. -/
theorem coherent_saveCache (m : MachineState) : Coherent (saveCache m) := by
  intro ps hps
  unfold saveCache at hps ⊢
  cases h : m.cache.providers <;> simp [h] at hps ⊢
  exact hps

/-- `_updateUI` preserves store/cache coherence. -/
theorem coherent_applyUpdateUI (cfg : Config) (now : Int) (m : MachineState)
    (hc : Coherent m) : Coherent (applyUpdateUI cfg now m) := by
  intro ps hps
  obtain ⟨h1, h2⟩ := applyUpdateUI_frame cfg now m
  rw [h1] at hps
  rw [h1, h2]
  exact hc ps hps

/-- `_loadCache` seeds a coherent machine state. -/
theorem coherent_loadCache (cfg : Config) (now : Int) (store : Store) :
    Coherent (loadCache cfg now store) := by
  intro ps hps
  unfold loadCache at hps ⊢
  cases h : store.payload <;>
    simp [h] at hps ⊢ <;>
    split at hps <;> simp_all

/-- `_refresh` preserves store/cache coherence. -/
theorem coherent_refreshStep (cfg : Config) (now : Int) (m : MachineState)
    (r : FetchResultR) (hc : Coherent m) : Coherent (refreshStep cfg now m r) := by
  unfold refreshStep
  by_cases hl : m.state = ExtState.loading
  · simpa [hl] using hc
  · simp only [hl, if_false]
    cases h : updateUI cfg now { m with state := ExtState.loading } with
    | error e =>
      intro ps hps
      exact hc ps hps
    | ok p =>
      obtain ⟨m1b, vm⟩ := p
      by_cases hs : r.success <;>
        simp [hs] <;>
        exact coherent_applyUpdateUI _ _ _ (coherent_saveCache _)

/-- Any sequence of refreshes from a loaded state stays coherent. -/
theorem coherent_runSeq (cfg : Config) (steps : List (Int × FetchResultR))
    (m : MachineState) (hc : Coherent m) : Coherent (runSeq cfg steps m) := by
  induction steps generalizing m with
  | nil => simpa [runSeq]
  | cons s rest ih =>
    simp only [runSeq, List.foldl_cons]
    exact ih _ (coherent_refreshStep cfg s.1 m s.2 hc)


/-! ## Claim theorems -/

/-- C4: with `staleAfterSeconds = 600`, a machine in `ERROR_WITH_CACHE`
whose cache is 601 seconds old is left in `ERROR_WITH_CACHE` by the
per-update state re-evaluation — the documented
`ERROR_WITH_CACHE → STALE` transition does not happen (`_updateUI` only
re-evaluates `OK`). -/
theorem error_with_cache_age_not_stale :
    (applyUpdateUI cfg600 1601 mEWC).state = ExtState.errorWithCache ∧
    1601 - mEWC.cache.timestamp > cfg600.staleAfterSeconds := by
  exact ⟨rfl, by decide⟩

/-- C5: staleness uses a strict `>` recomputed on every read: with
`staleAfterSeconds = 600` and the last success at 1000, the state reads
`OK` at 1599 (599 s ago) and `STALE` at 1601 (601 s ago), both through
the per-update re-evaluation and through the startup load; and the
re-evaluation by itself never touches the cache or the durable store
(no fetch is initiated by it). -/
theorem staleness_strict_boundary :
    (applyUpdateUI cfg600 1599 mOK).state = ExtState.ok ∧
    (applyUpdateUI cfg600 1601 mOK).state = ExtState.stale ∧
    (loadCache cfg600 1599 storeOK).state = ExtState.ok ∧
    (loadCache cfg600 1601 storeOK).state = ExtState.stale ∧
    (∀ (cfg : Config) (now : Int) (m : MachineState),
      (applyUpdateUI cfg now m).cache = m.cache ∧
      (applyUpdateUI cfg now m).store = m.store) := by
  exact ⟨rfl, rfl, rfl, rfl, applyUpdateUI_frame⟩

/-- C8: a refresh trigger that arrives while the machine is `LOADING`
is dropped: for every fetch outcome, `_refresh` returns the machine
unchanged (no state change, no cache change, and the outcome — hence
any fetch — is ignored). -/
theorem refresh_loading_noop (cfg : Config) (now : Int) (m : MachineState)
    (r : FetchResultR) (h : m.state = ExtState.loading) :
    refreshStep cfg now m r = m := by
  unfold refreshStep
  simp [h]

/-- Witness for `refresh_loading_noop` at a concrete loading state. -/
theorem refresh_loading_noop_witness :
    mLoad.state = ExtState.loading ∧ refreshStep cfg600 77 mLoad fFail = mLoad :=
  ⟨rfl, refresh_loading_noop cfg600 77 mLoad fFail rfl⟩

/-- C9: the happy-path scenario: normalizing
`{provider: "claude", usage: {primary: {usedPercent: 55}}}` yields a
primary window with `remainingPercent = 45`, and aggregating the result
with the default thresholds yields `minRemainingPercent = 45`,
`warningCount = 0`, `criticalCount = 0`. -/
theorem happy_path_scenario :
    (normalizeProvider rawClaude).primary =
      some { label := "Session", usedPercent := 55, remainingPercent := 45,
             windowMinutes := none, resetsAt := none, resetDescription := none } ∧
    ∃ s, calculateAggregateStats d0 (some [some (normalizeProvider rawClaude)]) {} =
          Except.ok s ∧
      s.minRemainingPercent = some 45 ∧ s.warningCount = 0 ∧ s.criticalCount = 0 := by
  refine ⟨by decide, ?_⟩
  refine ⟨(finalizeAgg (stepProvider 20 5 d0 initAggState (normalizeProvider rawClaude))),
    by rfl, by decide, by decide, by decide⟩

/-- C10: `_updateUI` never passes the configured thresholds to
`calculateAggregateStats`: its result is unchanged under any configured
warning/critical thresholds; the built-in defaults it thereby uses are
exactly `warning = 20`, `critical = 5`; and a change to either threshold
setting merely re-runs the same evaluation. -/
theorem updateUI_default_thresholds (cfg : Config) (now : Int) (m : MachineState)
    (wt ct : Int) :
    updateUI { cfg with warningThreshold := wt, criticalThreshold := ct } now m =
      updateUI cfg now m ∧
    (∀ provs, calculateAggregateStats cfg.dateMs provs {} =
      calculateAggregateStats cfg.dateMs provs
        { warningThreshold := some 20, criticalThreshold := some 5 }) ∧
    onSettingsChanged SettingsKey.warningThreshold = SettingsReaction.redrawUI ∧
    onSettingsChanged SettingsKey.criticalThreshold = SettingsReaction.redrawUI := by
  exact ⟨rfl, fun provs => rfl, rfl, rfl⟩

/-- If no array element is `null`/`undefined`, the JS filter stage never
throws and agrees with the pure filter. -/
theorem filterElems_no_null (l : List RawElem) (h : ∀ e ∈ l, e ≠ RawElem.jsNull) :
    filterElems l = Except.ok (l.filter keepB) := by
  induction l with
  | nil => rfl
  | cons e es ih =>
    have he : e ≠ RawElem.jsNull := h e (List.mem_cons_self e es)
    have hes : ∀ x ∈ es, x ≠ RawElem.jsNull := fun x hx => h x (List.mem_cons_of_mem e hx)
    cases e with
    | jsNull => exact absurd rfl he
    | falsy =>
      simp [filterElems, keepElem, bind, Except.bind, ih hes, List.filter_cons, keepB]
    | obj o =>
      simp [filterElems, keepElem, bind, Except.bind, ih hes, List.filter_cons, keepB]

/-- If some array element is `null`/`undefined`, the JS filter stage
throws. -/
theorem filterElems_has_null (l : List RawElem) (h : RawElem.jsNull ∈ l) :
    ∃ msg, filterElems l = Except.error msg := by
  induction l with
  | nil => cases h
  | cons e es ih =>
    cases e with
    | jsNull => exact ⟨"TypeError: p is null", rfl⟩
    | falsy =>
      have hm : RawElem.jsNull ∈ es := by
        rcases List.mem_cons.mp h with h1 | h1
        · cases h1
        · exact h1
      obtain ⟨msg, hmsg⟩ := ih hm
      exact ⟨msg, by simp [filterElems, keepElem, bind, Except.bind, hmsg]⟩
    | obj o =>
      have hm : RawElem.jsNull ∈ es := by
        rcases List.mem_cons.mp h with h1 | h1
        · cases h1
        · exact h1
      obtain ⟨msg, hmsg⟩ := ih hm
      exact ⟨msg, by simp [filterElems, keepElem, bind, Except.bind, hmsg]⟩

/-- C7: binary resolution: an explicitly configured path that fails the
executable test yields the not-found failure immediately without
consulting the search path (the result is the same for every
`findInPath`); with no configured path, the search path is consulted
and the not-found failure arises only when it is empty, otherwise the
fetch proceeds with the discovered binary. -/
theorem resolve_explicit_path_no_fallback (env : CLIEnv) (now : Int) (opts : FetchOptions) :
    (opts.cliPath ≠ "" → env.isExecutable opts.cliPath = false →
      findCLI env opts.cliPath = none ∧
      fetchProviders env now opts =
        { success := false, providers := none, error := some notFoundMsg, timestamp := now }) ∧
    (opts.cliPath = "" →
      findCLI env opts.cliPath = env.findInPath ∧
      (env.findInPath = none →
        fetchProviders env now opts =
          { success := false, providers := none, error := some notFoundMsg, timestamp := now }) ∧
      (∀ b, env.findInPath = some b → fetchProviders env now opts = runCLI env now opts)) := by
  constructor
  · intro h1 h2
    have hf : findCLI env opts.cliPath = none := by
      unfold findCLI
      simp [h1, h2]
    exact ⟨hf, by unfold fetchProviders; rw [hf]⟩
  · intro h1
    have hf : findCLI env opts.cliPath = env.findInPath := by
      unfold findCLI
      simp [h1]
    refine ⟨hf, fun h2 => by unfold fetchProviders; rw [hf, h2], fun b h2 => ?_⟩
    unfold fetchProviders
    rw [hf, h2]

/-- Witness for `resolve_explicit_path_no_fallback`: a configured
non-executable path fails immediately even though the search path knows
a binary, and with no configured path an empty search path fails. -/
theorem resolve_explicit_path_no_fallback_witness :
    (findCLI envNoExec "/custom/codexbar" = none ∧
     fetchProviders envNoExec 7 { cliPath := "/custom/codexbar" } =
       { success := false, providers := none, error := some notFoundMsg, timestamp := 7 }) ∧
    (fetchProviders envEmptyPath 7 {} =
       { success := false, providers := none, error := some notFoundMsg, timestamp := 7 }) := by
  have h1 := (resolve_explicit_path_no_fallback envNoExec 7 { cliPath := "/custom/codexbar" }).1
    (by decide) rfl
  have h2 := (resolve_explicit_path_no_fallback envEmptyPath 7 {}).2 rfl
  exact ⟨⟨h1.1, h1.2⟩, h2.2.1 rfl⟩

/-- C3 counterexample: with exit code 0 and stdout the JSON array
`[null]`, `fetchProviders` returns a Failure (the filter predicate
throws on the `null` element), not the Success-with-drop the claim
states; and with stdout `[0]` (a falsy non-null element) it returns a
Success that retains the `null` normalization result instead of
dropping it. -/
theorem fetch_null_element_counterexample :
    (fetchProviders envNull 42 {}).success = false ∧
    (fetchProviders envNull 42 {}).error = some "TypeError: p is null" ∧
    fetchProviders envFalsy 42 {} =
      { success := true, providers := some [none], error := none, timestamp := 42 } := by
  exact ⟨by decide, by decide, by decide⟩

/-- C3 amended: when the CLI exits 0 and stdout parses as a JSON array,
then (a) if no element is `null`/`undefined`, the result is a Success
whose list is exactly the CLI-marker-filtered elements mapped through
`normalizeProvider` — elements normalizing to `null` are retained, not
dropped; and (b) if some element is `null`/`undefined`, the filter
predicate throws and the result is a Failure. -/
theorem fetch_array_processing (env : CLIEnv) (now : Int) (opts : FetchOptions)
    (b : String) (sout serr : StreamData) (elems : List RawElem)
    (hfind : findCLI env opts.cliPath = some b)
    (hout : env.outcome = ProcOutcome.completed 0 sout serr)
    (hparsed : sout.parsed = ParsedJson.arr elems) :
    ((∀ e ∈ elems, e ≠ RawElem.jsNull) →
      fetchProviders env now opts =
        { success := true,
          providers := some ((elems.filter keepB).map normalizeElem),
          error := none, timestamp := now }) ∧
    (RawElem.jsNull ∈ elems → (fetchProviders env now opts).success = false) := by
  have hrun : fetchProviders env now opts = runCLI env now opts := by
    unfold fetchProviders
    rw [hfind]
  constructor
  · intro hnn
    rw [hrun]
    unfold runCLI
    rw [hout]
    simp only [ne_eq, not_true_eq_false, if_false, hparsed]
    unfold processData
    rw [filterElems_no_null elems hnn]
    rfl
  · intro hnull
    obtain ⟨msg, hmsg⟩ := filterElems_has_null elems hnull
    rw [hrun]
    unfold runCLI
    rw [hout]
    simp only [ne_eq, not_true_eq_false, if_false, hparsed]
    unfold processData
    rw [hmsg]
    rfl

/-- Witness for `fetch_array_processing`: a batch holding the CLI
metadata marker and the claude payload yields a Success containing just
the normalized claude provider. -/
theorem fetch_array_processing_witness :
    fetchProviders envBatch 42 {} =
      { success := true, providers := some [some (normalizeProvider rawClaude)],
        error := none, timestamp := 42 } := by
  have h := (fetch_array_processing envBatch 42 {} "/usr/bin/codexbar"
    { parsed := ParsedJson.arr [RawElem.obj rawCliMeta, RawElem.obj rawClaude] } {}
    [RawElem.obj rawCliMeta, RawElem.obj rawClaude] rfl rfl rfl).1 (by decide)
  rw [h]
  rfl

/-- A successful `_updateUI` only rewrites the state label of the
machine it returns. -/
theorem updateUI_ok_frame (cfg : Config) (now : Int) (m m2 : MachineState)
    (vm : ViewModel) (h : updateUI cfg now m = Except.ok (m2, vm)) :
    m2.cache = m.cache ∧ m2.store = m.store := by
  unfold updateUI at h
  cases hcalc : calculateAggregateStats cfg.dateMs m.cache.providers {} with
  | error e =>
    rw [hcalc] at h
    simp [bind, Except.bind] at h
  | ok stats =>
    rw [hcalc] at h
    simp only [bind, Except.bind, Except.ok.injEq, Prod.mk.injEq] at h
    obtain ⟨h1, h2⟩ := h
    rw [← h1]
    exact ⟨rfl, rfl⟩

/-- Saving and re-rendering after the failure branch of `_refresh`
preserves payload and timestamp, in memory and durably, for any
coherent pre-state. -/
theorem saveCache_failure_frame (cfg : Config) (now : Int) (m X : MachineState)
    (hc : Coherent m)
    (h1 : X.cache.providers = m.cache.providers)
    (h2 : X.cache.timestamp = m.cache.timestamp)
    (h3 : X.store = m.store) :
    (applyUpdateUI cfg now (saveCache X)).cache.providers = m.cache.providers ∧
    (applyUpdateUI cfg now (saveCache X)).cache.timestamp = m.cache.timestamp ∧
    (applyUpdateUI cfg now (saveCache X)).store.payload = m.store.payload ∧
    (applyUpdateUI cfg now (saveCache X)).store.ts = m.store.ts := by
  obtain ⟨hfc, hfs⟩ := applyUpdateUI_frame cfg now (saveCache X)
  refine ⟨?_, ?_, ?_, ?_⟩
  · rw [hfc]
    exact h1
  · rw [hfc]
    exact h2
  · rw [hfs]
    unfold saveCache
    cases hp : X.cache.providers with
    | none => simp [h3]
    | some ps =>
      have hm : m.cache.providers = some ps := by rw [← h1, hp]
      simp [(hc ps hm).1]
  · rw [hfs]
    unfold saveCache
    cases hp : X.cache.providers with
    | none => simp [h3]
    | some ps =>
      have hm : m.cache.providers = some ps := by rw [← h1, hp]
      simp only []
      show X.cache.timestamp = m.store.ts
      rw [h2, (hc ps hm).2]

/-- One failing `_refresh` on a coherent machine leaves payload and
success timestamp — in memory and in the durable store — untouched, and
rewrites at most the error-message field of the cache record. -/
theorem refreshStep_failure_frame (cfg : Config) (now : Int) (m : MachineState)
    (f : FetchResultR) (hf : f.success = false) (hc : Coherent m) :
    (refreshStep cfg now m f).cache.providers = m.cache.providers ∧
    (refreshStep cfg now m f).cache.timestamp = m.cache.timestamp ∧
    (refreshStep cfg now m f).store.payload = m.store.payload ∧
    (refreshStep cfg now m f).store.ts = m.store.ts ∧
    ((refreshStep cfg now m f).cache.error = m.cache.error ∨
     (refreshStep cfg now m f).cache.error = f.error) := by
  unfold refreshStep
  by_cases hl : m.state = ExtState.loading
  · simp [hl]
  · simp only [hl, if_false]
    cases h : updateUI cfg now { m with state := ExtState.loading } with
    | error e => exact ⟨rfl, rfl, rfl, rfl, Or.inl rfl⟩
    | ok p =>
      obtain ⟨m1b, vm⟩ := p
      obtain ⟨hcache, hstore⟩ := updateUI_ok_frame cfg now _ m1b vm h
      simp only [hf, Bool.false_eq_true, if_false]
      have key := saveCache_failure_frame cfg now m
        { m1b with
          cache := { m1b.cache with error := f.error },
          state := if ({ m1b.cache with error := f.error } : CacheRecord).providers.isSome
                   then ExtState.errorWithCache else ExtState.error }
        hc (by simp [hcache]) (by simp [hcache]) (by simp [hstore])
      refine ⟨key.1, key.2.1, key.2.2.1, key.2.2.2, Or.inr ?_⟩
      have hec := (applyUpdateUI_frame cfg now (saveCache
        { m1b with
          cache := { m1b.cache with error := f.error },
          state := if ({ m1b.cache with error := f.error } : CacheRecord).providers.isSome
                   then ExtState.errorWithCache else ExtState.error })).1
      rw [hec]
      rfl

/-- C1: resilience invariant — for any sequence of fetch outcomes run
from a freshly loaded machine, a subsequent `Failure` outcome leaves
the cached payload (`providers`) and the last-success timestamp, both
in memory and in the durable store, exactly equal to their pre-failure
values; at most the error-message field of the cache record is
rewritten (to the failure's message). -/
theorem refresh_failure_preserves_cache (cfg : Config) (store : Store)
    (init : Int) (steps : List (Int × FetchResultR)) (now : Int)
    (f : FetchResultR) (hf : f.success = false) :
    (refreshStep cfg now (runSeq cfg steps (loadCache cfg init store)) f).cache.providers
      = (runSeq cfg steps (loadCache cfg init store)).cache.providers ∧
    (refreshStep cfg now (runSeq cfg steps (loadCache cfg init store)) f).cache.timestamp
      = (runSeq cfg steps (loadCache cfg init store)).cache.timestamp ∧
    (refreshStep cfg now (runSeq cfg steps (loadCache cfg init store)) f).store.payload
      = (runSeq cfg steps (loadCache cfg init store)).store.payload ∧
    (refreshStep cfg now (runSeq cfg steps (loadCache cfg init store)) f).store.ts
      = (runSeq cfg steps (loadCache cfg init store)).store.ts ∧
    ((refreshStep cfg now (runSeq cfg steps (loadCache cfg init store)) f).cache.error
      = (runSeq cfg steps (loadCache cfg init store)).cache.error ∨
     (refreshStep cfg now (runSeq cfg steps (loadCache cfg init store)) f).cache.error
      = f.error) :=
  refreshStep_failure_frame cfg now (runSeq cfg steps (loadCache cfg init store)) f hf
    (coherent_runSeq cfg steps (loadCache cfg init store) (coherent_loadCache cfg init store))

/-- Witness for `refresh_failure_preserves_cache` at a concrete seeded
machine and failure. -/
theorem refresh_failure_preserves_cache_witness :
    fFail.success = false ∧
    ((refreshStep cfg600 10 mSeeded fFail).cache.providers = mSeeded.cache.providers ∧
     (refreshStep cfg600 10 mSeeded fFail).cache.timestamp = mSeeded.cache.timestamp ∧
     (refreshStep cfg600 10 mSeeded fFail).store.payload = mSeeded.store.payload ∧
     (refreshStep cfg600 10 mSeeded fFail).store.ts = mSeeded.store.ts ∧
     ((refreshStep cfg600 10 mSeeded fFail).cache.error = mSeeded.cache.error ∨
      (refreshStep cfg600 10 mSeeded fFail).cache.error = fFail.error)) :=
  ⟨rfl, refresh_failure_preserves_cache cfg600 storeOK 0 [] 10 fFail rfl⟩

/-! ## Aggregate-loop characterization lemmas -/

/-- The reset-tracking statement does not change the minimum accumulator. -/
theorem stepWindowReset_minPercent (dateMs : String → Int) (st : AggState) (w : Window) :
    (stepWindowReset dateMs st w).minPercent = st.minPercent := by
  unfold stepWindowReset
  cases w.resetsAt with
  | none => rfl
  | some s =>
    by_cases hs : s = "" <;> simp [hs] <;> split <;> rfl

/-- The reset-tracking statement does not change the counters. -/
theorem stepWindowReset_counts (dateMs : String → Int) (st : AggState) (w : Window) :
    (stepWindowReset dateMs st w).criticalCount = st.criticalCount ∧
    (stepWindowReset dateMs st w).warningCount = st.warningCount := by
  unfold stepWindowReset
  cases w.resetsAt with
  | none => exact ⟨rfl, rfl⟩
  | some s =>
    by_cases hs : s = "" <;> simp [hs] <;> split <;> simp

/-- The bucketing statement does not change the minimum accumulator. -/
theorem stepWindowCounts_minPercent (wt ct : Int) (st : AggState) (w : Window) :
    (stepWindowCounts wt ct st w).minPercent = st.minPercent := by
  unfold stepWindowCounts
  split <;> try rfl
  split <;> rfl

/-- The minimum statement does not change the counters. -/
theorem stepWindowMin_counts (p : Provider) (st : AggState) (w : Window) :
    (stepWindowMin p st w).criticalCount = st.criticalCount ∧
    (stepWindowMin p st w).warningCount = st.warningCount := by
  unfold stepWindowMin
  split <;> exact ⟨rfl, rfl⟩

/-- The minimum statement computes exactly the binary minimum. -/
theorem stepWindowMin_minPercent (p : Provider) (st : AggState) (w : Window) :
    (stepWindowMin p st w).minPercent = min st.minPercent w.remainingPercent := by
  unfold stepWindowMin
  split <;> simp <;> omega

/-- One window iteration updates the minimum accumulator to the binary
minimum with the window's `remainingPercent`. -/
theorem stepWindow_minPercent (wt ct : Int) (dateMs : String → Int) (p : Provider)
    (st : AggState) (w : Window) :
    (stepWindow wt ct dateMs p st w).minPercent = min st.minPercent w.remainingPercent := by
  unfold stepWindow
  rw [stepWindowReset_minPercent, stepWindowCounts_minPercent, stepWindowMin_minPercent]

/-- One window iteration increments the critical counter exactly when
`remainingPercent < critical` (strict). -/
theorem stepWindow_criticalCount (wt ct : Int) (dateMs : String → Int) (p : Provider)
    (st : AggState) (w : Window) :
    (stepWindow wt ct dateMs p st w).criticalCount =
      st.criticalCount + (if w.remainingPercent < ct then 1 else 0) := by
  unfold stepWindow
  rw [(stepWindowReset_counts dateMs _ w).1]
  unfold stepWindowCounts
  rcases stepWindowMin_counts p st w with ⟨h1, h2⟩
  split
  · simp [h1]
  · split <;> simp [h1, h2]

/-- One window iteration increments the warning counter exactly when
`remainingPercent` is not below `critical` but is below `warning`
(both strict; critical takes precedence). -/
theorem stepWindow_warningCount (wt ct : Int) (dateMs : String → Int) (p : Provider)
    (st : AggState) (w : Window) :
    (stepWindow wt ct dateMs p st w).warningCount =
      st.warningCount +
        (if w.remainingPercent < ct then 0
         else if w.remainingPercent < wt then 1 else 0) := by
  unfold stepWindow
  rw [(stepWindowReset_counts dateMs _ w).2]
  unfold stepWindowCounts
  rcases stepWindowMin_counts p st w with ⟨h1, h2⟩
  split
  · simp [h2]
  · split <;> simp [h1, h2]

/-- Folding the window loop over a list computes the running minimum. -/
theorem foldl_stepWindow_min (wt ct : Int) (dateMs : String → Int) (p : Provider)
    (ws : List Window) (st : AggState) :
    (ws.foldl (stepWindow wt ct dateMs p) st).minPercent =
      ws.foldl (fun m w => min m w.remainingPercent) st.minPercent := by
  induction ws generalizing st with
  | nil => rfl
  | cons w ws ih =>
    simp only [List.foldl_cons]
    rw [ih, stepWindow_minPercent]

/-- Folding the window loop over a list counts the critical windows. -/
theorem foldl_stepWindow_crit (wt ct : Int) (dateMs : String → Int) (p : Provider)
    (ws : List Window) (st : AggState) :
    (ws.foldl (stepWindow wt ct dateMs p) st).criticalCount =
      st.criticalCount + ws.countP (fun w => decide (w.remainingPercent < ct)) := by
  induction ws generalizing st with
  | nil => simp
  | cons w ws ih =>
    simp only [List.foldl_cons, List.countP_cons]
    rw [ih, stepWindow_criticalCount]
    by_cases h : w.remainingPercent < ct <;> simp [h] <;> omega

/-- Folding the window loop over a list counts the warning windows
(those not critical but below the warning threshold). -/
theorem foldl_stepWindow_warn (wt ct : Int) (dateMs : String → Int) (p : Provider)
    (ws : List Window) (st : AggState) :
    (ws.foldl (stepWindow wt ct dateMs p) st).warningCount =
      st.warningCount + ws.countP
        (fun w => !decide (w.remainingPercent < ct) && decide (w.remainingPercent < wt)) := by
  induction ws generalizing st with
  | nil => simp
  | cons w ws ih =>
    simp only [List.foldl_cons, List.countP_cons]
    rw [ih, stepWindow_warningCount]
    by_cases h1 : w.remainingPercent < ct
    · simp [h1]
    · by_cases h2 : w.remainingPercent < wt <;> simp [h1, h2] <;> omega

/-- Folding the provider loop computes the running minimum over the
windows the code visits. -/
theorem foldl_stepProvider_min (wt ct : Int) (dateMs : String → Int)
    (ps : List Provider) (st : AggState) :
    (ps.foldl (stepProvider wt ct dateMs) st).minPercent =
      (codeWindows ps).foldl (fun m w => min m w.remainingPercent) st.minPercent := by
  induction ps generalizing st with
  | nil => rfl
  | cons p ps ih =>
    simp only [List.foldl_cons]
    rw [ih]
    unfold stepProvider codeWindows
    by_cases he : errTruthy p.error
    · rw [if_pos he, List.filter_cons, if_neg (by simp [he])]
    · rw [if_neg he, List.filter_cons, if_pos (by simp [he]), List.map_cons,
        List.flatten_cons, List.foldl_append, foldl_stepWindow_min]

/-- Folding the provider loop counts the critical windows the code
visits. -/
theorem foldl_stepProvider_crit (wt ct : Int) (dateMs : String → Int)
    (ps : List Provider) (st : AggState) :
    (ps.foldl (stepProvider wt ct dateMs) st).criticalCount =
      st.criticalCount + (codeWindows ps).countP (fun w => decide (w.remainingPercent < ct)) := by
  induction ps generalizing st with
  | nil => simp [codeWindows]
  | cons p ps ih =>
    simp only [List.foldl_cons]
    rw [ih]
    unfold stepProvider codeWindows
    by_cases he : errTruthy p.error
    · rw [if_pos he, List.filter_cons, if_neg (by simp [he])]
    · rw [if_neg he, List.filter_cons, if_pos (by simp [he]), List.map_cons,
        List.flatten_cons, List.countP_append, foldl_stepWindow_crit]
      omega

/-- Folding the provider loop counts the warning windows the code
visits. -/
theorem foldl_stepProvider_warn (wt ct : Int) (dateMs : String → Int)
    (ps : List Provider) (st : AggState) :
    (ps.foldl (stepProvider wt ct dateMs) st).warningCount =
      st.warningCount + (codeWindows ps).countP
        (fun w => !decide (w.remainingPercent < ct) && decide (w.remainingPercent < wt)) := by
  induction ps generalizing st with
  | nil => simp [codeWindows]
  | cons p ps ih =>
    simp only [List.foldl_cons]
    rw [ih]
    unfold stepProvider codeWindows
    by_cases he : errTruthy p.error
    · rw [if_pos he, List.filter_cons, if_neg (by simp [he])]
    · rw [if_neg he, List.filter_cons, if_pos (by simp [he]), List.map_cons,
        List.flatten_cons, List.countP_append, foldl_stepWindow_warn]
      omega

/-- On a list with no `null` elements the JS provider loop never throws
and agrees with the pure fold. -/
theorem foldlM_aggStep_map_some (wt ct : Int) (dateMs : String → Int)
    (ps : List Provider) (st : AggState) :
    (ps.map some).foldlM (aggStep wt ct dateMs) st =
      Except.ok (ps.foldl (stepProvider wt ct dateMs) st) := by
  induction ps generalizing st with
  | nil => rfl
  | cons p ps ih =>
    simp only [List.map_cons, List.foldl_cons]
    rw [List.foldlM_cons]
    show (aggStep wt ct dateMs st (some p)) >>= _ = _
    rw [show aggStep wt ct dateMs st (some p) =
      Except.ok (stepProvider wt ct dateMs st p) from rfl]
    show (ps.map some).foldlM (aggStep wt ct dateMs) (stepProvider wt ct dateMs st p) = _
    exact ih _

/-- `calculateAggregateStats` on a null-free provider list is the
finalized pure fold (with the destructuring threshold defaults). -/
theorem calc_map_some (dateMs : String → Int) (opts : AggOptions) (ps : List Provider) :
    calculateAggregateStats dateMs (some (ps.map some)) opts =
      Except.ok (finalizeAgg (ps.foldl
        (stepProvider (opts.warningThreshold.getD 20) (opts.criticalThreshold.getD 5) dateMs)
        initAggState)) := by
  unfold calculateAggregateStats
  cases ps with
  | nil => rfl
  | cons p ps =>
    simp only [List.map_cons, List.length_cons, Nat.succ_ne_zero, if_false,
      List.length_eq_zero]
    rw [← List.map_cons, foldlM_aggStep_map_some]
    rfl

/-- A fold of `min` never exceeds its initial accumulator. -/
theorem foldl_min_le_init (rs : List Int) (a : Int) : rs.foldl min a ≤ a := by
  induction rs generalizing a with
  | nil => exact le_refl a
  | cons r rs ih =>
    simp only [List.foldl_cons]
    exact le_trans (ih (min a r)) (min_le_left a r)

/-- A fold of `min` is a lower bound of every list element. -/
theorem foldl_min_le_mem (rs : List Int) (a r : Int) (h : r ∈ rs) :
    rs.foldl min a ≤ r := by
  induction rs generalizing a with
  | nil => cases h
  | cons x xs ih =>
    simp only [List.foldl_cons]
    rcases List.mem_cons.mp h with h1 | h1
    · subst h1
      exact le_trans (foldl_min_le_init xs (min a r)) (min_le_right a r)
    · exact ih (min a x) h1

/-- A fold of `min` is the initial accumulator or a list element. -/
theorem foldl_min_init_or_mem (rs : List Int) (a : Int) :
    rs.foldl min a = a ∨ rs.foldl min a ∈ rs := by
  induction rs generalizing a with
  | nil => exact Or.inl rfl
  | cons x xs ih =>
    simp only [List.foldl_cons]
    rcases ih (min a x) with h | h
    · rcases min_cases a x with ⟨h1, _⟩ | ⟨h1, _⟩
      · exact Or.inl (h.trans h1)
      · exact Or.inr (by rw [h, h1]; exact List.mem_cons_self x xs)
    · exact Or.inr (List.mem_cons_of_mem x h)

/-- Any common lower bound of accumulator and elements bounds the fold. -/
theorem le_foldl_min (rs : List Int) (a b : Int) (h1 : b ≤ a)
    (h2 : ∀ r ∈ rs, b ≤ r) : b ≤ rs.foldl min a := by
  induction rs generalizing a with
  | nil => exact h1
  | cons x xs ih =>
    simp only [List.foldl_cons]
    exact ih (min a x) (le_min h1 (h2 x (List.mem_cons_self x xs)))
      (fun r hr => h2 r (List.mem_cons_of_mem x hr))

/-- On normalizer outputs (no empty-string error), the windows the code
visits are exactly the null-error providers' present windows. -/
theorem codeWindows_eq_nonError (ps : List Provider) (h : NormalizedErrors ps) :
    codeWindows ps = nonErrorWindows ps := by
  unfold codeWindows nonErrorWindows
  induction ps with
  | nil => rfl
  | cons p ps ih =>
    have hp : p.error ≠ some (ErrVal.str "") := h p (List.mem_cons_self p ps)
    have hps : NormalizedErrors ps := fun q hq => h q (List.mem_cons_of_mem p hq)
    have heq : (!errTruthy p.error) = p.error.isNone := by
      cases he : p.error with
      | none => rfl
      | some e =>
        cases e with
        | str s =>
          have : s ≠ "" := by
            intro hs
            exact hp (by rw [he, hs])
          simp [errTruthy, this]
        | obj m => simp [errTruthy]
    simp only [List.filter_cons, heq]
    cases hn : p.error.isNone <;> simp [ih hps]

/-- C2 counterexample: the error-free provider `p100` has a present
window (`remainingPercent = 100`), yet `calculateAggregateStats`
returns `minRemainingPercent = null` — the claimed "null iff no present
window exists" fails at remaining = 100 because of the
`minPercent < 100 ? minPercent : null` sentinel. -/
theorem aggregate_min_counterexample :
    (∃ s, calculateAggregateStats d0 (some [some p100]) {} = Except.ok s ∧
       s.minRemainingPercent = none) ∧
    nonErrorWindows [p100] = [w100] := by
  exact ⟨⟨finalizeAgg (stepProvider 20 5 d0 initAggState p100), by rfl, by decide⟩, by decide⟩

/-- C2 amended: for every normalized provider list,
`calculateAggregateStats` succeeds and its `minRemainingPercent` is
`null` iff every present window of every null-error provider has
`remainingPercent ≥ 100` (in particular when no window exists); when it
is non-null it is exactly the true minimum `remainingPercent` over
those windows (which is then below 100). -/
theorem aggregate_min_below100 (dateMs : String → Int) (opts : AggOptions)
    (ps : List Provider) (hnorm : NormalizedErrors ps) :
    ∃ s, calculateAggregateStats dateMs (some (ps.map some)) opts = Except.ok s ∧
      (s.minRemainingPercent = none ↔ ∀ r ∈ specRemainings ps, (100 : Int) ≤ r) ∧
      (∀ mv, s.minRemainingPercent = some mv →
        mv ∈ specRemainings ps ∧ ∀ r ∈ specRemainings ps, mv ≤ r) := by
  refine ⟨_, calc_map_some dateMs opts ps, ?_⟩
  have hM : (ps.foldl (stepProvider (opts.warningThreshold.getD 20)
      (opts.criticalThreshold.getD 5) dateMs) initAggState).minPercent =
      (specRemainings ps).foldl min 100 := by
    rw [foldl_stepProvider_min, codeWindows_eq_nonError ps hnorm]
    unfold specRemainings
    rw [List.foldl_map]
    rfl
  simp only [finalizeAgg, hM]
  constructor
  · constructor
    · intro h r hr
      by_cases hlt : (specRemainings ps).foldl min 100 < 100
      · rw [if_pos hlt] at h
        cases h
      · have h2 := foldl_min_le_mem (specRemainings ps) 100 r hr
        omega
    · intro h
      have h2 : (100 : Int) ≤ (specRemainings ps).foldl min 100 :=
        le_foldl_min (specRemainings ps) 100 100 le_rfl h
      rw [if_neg (by omega)]
  · intro mv h
    by_cases hlt : (specRemainings ps).foldl min 100 < 100
    · rw [if_pos hlt] at h
      injection h with h
      subst h
      constructor
      · rcases foldl_min_init_or_mem (specRemainings ps) 100 with h | h
        · omega
        · exact h
      · exact fun r hr => foldl_min_le_mem (specRemainings ps) 100 r hr
    · rw [if_neg hlt] at h
      cases h

/-- Witness for `aggregate_min_below100` at the singleton list
`[p100]`. -/
theorem aggregate_min_below100_witness :
    NormalizedErrors [p100] ∧
    (∃ s, calculateAggregateStats d0 (some ([p100].map some)) {} = Except.ok s ∧
      (s.minRemainingPercent = none ↔ ∀ r ∈ specRemainings [p100], (100 : Int) ≤ r) ∧
      (∀ mv, s.minRemainingPercent = some mv →
        mv ∈ specRemainings [p100] ∧ ∀ r ∈ specRemainings [p100], mv ≤ r)) := by
  have hn : NormalizedErrors [p100] := by
    intro p hp
    rw [List.mem_singleton] at hp
    subst hp
    decide
  exact ⟨hn, aggregate_min_below100 d0 {} [p100] hn⟩

/-- C6: for every normalized provider list and thresholds,
`calculateAggregateStats` counts as critical exactly the null-error
providers' present windows with `remainingPercent < critical` (strict),
and as warning exactly those with `remainingPercent` not below
`critical` but strictly below `warning` — the buckets are mutually
exclusive per window and a window exactly at the critical threshold is
never counted critical. -/
theorem aggregate_counts_strict (dateMs : String → Int) (wt ct : Int)
    (ps : List Provider) (hnorm : NormalizedErrors ps) :
    ∃ s, calculateAggregateStats dateMs (some (ps.map some))
        { warningThreshold := some wt, criticalThreshold := some ct } = Except.ok s ∧
      s.criticalCount = (nonErrorWindows ps).countP
        (fun w => decide (w.remainingPercent < ct)) ∧
      s.warningCount = (nonErrorWindows ps).countP
        (fun w => !decide (w.remainingPercent < ct) && decide (w.remainingPercent < wt)) := by
  refine ⟨_, calc_map_some dateMs _ ps, ?_, ?_⟩
  · simp only [finalizeAgg, Option.getD_some]
    rw [foldl_stepProvider_crit, codeWindows_eq_nonError ps hnorm]
    simp [initAggState]
  · simp only [finalizeAgg, Option.getD_some]
    rw [foldl_stepProvider_warn, codeWindows_eq_nonError ps hnorm]
    simp [initAggState]

/-- Witness for `aggregate_counts_strict` at the singleton list
`[p100]` with the default thresholds. -/
theorem aggregate_counts_strict_witness :
    NormalizedErrors [p100] ∧
    (∃ s, calculateAggregateStats d0 (some ([p100].map some))
        { warningThreshold := some 20, criticalThreshold := some 5 } = Except.ok s ∧
      s.criticalCount = (nonErrorWindows [p100]).countP
        (fun w => decide (w.remainingPercent < 5)) ∧
      s.warningCount = (nonErrorWindows [p100]).countP
        (fun w => !decide (w.remainingPercent < 5) && decide (w.remainingPercent < 20))) := by
  have hn : NormalizedErrors [p100] := by
    intro p hp
    rw [List.mem_singleton] at hp
    subst hp
    decide
  exact ⟨hn, aggregate_counts_strict d0 20 5 [p100] hn⟩
